import Mathlib

/-!
# Train tracker: arrival aggregation and countdown engine

A shallow embedding of `script.js` (Jackson Heights train tracker) together with the
properties its specification states about it.

Modelling conventions.

* JavaScript numbers are `JSNum`: an exact rational, `+Infinity`, `-Infinity` or `NaN`.
  Rounding of doubles is not modelled; the quantities of the program are integers of
  milliseconds divided by the literals `60000`, `1000` and `60`.
* `Date.now()` is an explicit argument `now : Int` (milliseconds).
* The decoded feed is the object tree protobuf.js hands to the script; an `int64` field is
  an integer.
* The DOM is reduced to the two things the script keeps state in: the `<p>` elements it
  tracks in `allTrainUpdates` and the leave-message boxes it looks up by id.
-/

namespace TrainTracker

/-! ## JavaScript numbers -/

/-- A JavaScript number: a finite value, one of the two infinities, or NaN. -/
inductive JSNum where
  | fin (q : ℚ)
  | posInf
  | negInf
  | nan
  deriving DecidableEq

namespace JSNum

/-- The operator `a - b`. -/
def sub : JSNum → JSNum → JSNum
  | fin a, fin b => fin (a - b)
  | fin _, posInf => negInf
  | fin _, negInf => posInf
  | posInf, fin _ => posInf
  | posInf, negInf => posInf
  | negInf, fin _ => negInf
  | negInf, posInf => negInf
  | _, _ => nan

/-- The operator `a / d` for a positive finite literal `d` (the script divides by
`60000`, `1000` and `60` only). -/
def divLit : JSNum → ℚ → JSNum
  | fin a, d => fin (a / d)
  | posInf, _ => posInf
  | negInf, _ => negInf
  | nan, _ => nan

/-- The operator `a < b`; any comparison with NaN is false. -/
def lt : JSNum → JSNum → Bool
  | fin a, fin b => decide (a < b)
  | fin _, posInf => true
  | negInf, fin _ => true
  | negInf, posInf => true
  | _, _ => false

/-- The operator `a <= b`; any comparison with NaN is false. -/
def le : JSNum → JSNum → Bool
  | fin a, fin b => decide (a ≤ b)
  | fin _, posInf => true
  | negInf, fin _ => true
  | negInf, posInf => true
  | posInf, posInf => true
  | negInf, negInf => true
  | _, _ => false

/-- The operator `a > b`. -/
def gt (a b : JSNum) : Bool := lt b a

/-- The operator `a >= b`. -/
def ge (a b : JSNum) : Bool := le b a

/-- The function `Math.ceil`. -/
def ceil : JSNum → JSNum
  | fin a => fin (⌈a⌉ : Int)
  | x => x

end JSNum

/-! ## Decoded feed -/

/-- A `StopTimeEvent` of the feed; `time` is `none` when reading the field gives
`undefined`. -/
structure StopTimeEvent where
  time : Option Int
  deriving DecidableEq

/-- A `StopTimeUpdate` of the feed: stop identifier, optional arrival and departure. -/
structure StopTimeUpdate where
  stopId : String
  arrival : Option StopTimeEvent
  departure : Option StopTimeEvent
  deriving DecidableEq

/-- A `TripUpdate`; `stopTimeUpdate` is `none` when the property is missing. -/
structure TripUpdate where
  stopTimeUpdate : Option (List StopTimeUpdate)
  deriving DecidableEq

/-- A `FeedEntity`; `tripUpdate` is `none` when the entity carries no trip update. -/
structure FeedEntity where
  tripUpdate : Option TripUpdate
  deriving DecidableEq

/-- The decoded `FeedMessage`. -/
structure FeedMessage where
  entity : List FeedEntity
  deriving DecidableEq

/-- One object of `linesConfig`. -/
structure LineConfig where
  feedUrl : String
  stationIdBase : String
  lineName : String
  hideThreshold : ℚ
  deriving DecidableEq

/-- The 7 train at 82nd St. -/
def line7 : LineConfig :=
  { feedUrl := "https://api-endpoint.mta.info/Dataservice/mtagtfsfeeds/nyct%2Fgtfs"
    stationIdBase := "709"
    lineName := "7 Train at 82nd St – Jackson Heights"
    hideThreshold := 8 }

/-- The R train at Roosevelt Ave. -/
def lineR : LineConfig :=
  { feedUrl := "https://api-endpoint.mta.info/Dataservice/mtagtfsfeeds/nyct%2Fgtfs-nqrw"
    stationIdBase := "G14"
    lineName := "R Train at Roosevelt Ave"
    hideThreshold := 14 }

/-- The E train at Roosevelt Ave. -/
def lineE : LineConfig :=
  { feedUrl := "https://api-endpoint.mta.info/Dataservice/mtagtfsfeeds/nyct%2Fgtfs-ace"
    stationIdBase := "G14"
    lineName := "E Train at Roosevelt Ave"
    hideThreshold := 14 }

/-- The F train at Roosevelt Ave. -/
def lineF : LineConfig :=
  { feedUrl := "https://api-endpoint.mta.info/Dataservice/mtagtfsfeeds/nyct%2Fgtfs-bdfm"
    stationIdBase := "G14"
    lineName := "F Train at Roosevelt Ave"
    hideThreshold := 14 }

/-- The constant `linesConfig`. -/
def linesConfig : List LineConfig := [line7, lineR, lineE, lineF]

/-- The expression `stu.arrival?.time`. -/
def StopTimeUpdate.arrivalTime (stu : StopTimeUpdate) : Option Int :=
  stu.arrival.bind (fun e => e.time)

/-- The expression `stu.departure?.time`. -/
def StopTimeUpdate.departureTime (stu : StopTimeUpdate) : Option Int :=
  stu.departure.bind (fun e => e.time)

/-- Truthiness of an optional integer: `undefined` and `0` are falsy. -/
def truthy : Option Int → Bool
  | none => false
  | some t => decide (t ≠ 0)

/-! ## Utilities -/

/-- The value read from an optional integer once it is known to be truthy; `x || 0`. -/
def orZero (x : Option Int) : Int := if truthy x then x.getD 0 else 0

/-- The function `getArrivalTime`: arrival time in ms when `stu.arrival?.time` is truthy,
else departure time in ms when `stu.departure?.time` is truthy, else `Infinity`. -/
def getArrivalTime (stu : StopTimeUpdate) : JSNum :=
  if truthy stu.arrivalTime then JSNum.fin ((orZero stu.arrivalTime * 1000 : Int) : ℚ)
  else if truthy stu.departureTime then JSNum.fin ((orZero stu.departureTime * 1000 : Int) : ℚ)
  else JSNum.posInf

/-- The function `filterBelowThreshold`, with the reading of `Date.now()` as `now`. -/
def filterBelowThreshold (updates : List StopTimeUpdate) (thresholdMin : ℚ) (now : Int) :
    List StopTimeUpdate :=
  updates.filter (fun stu =>
    let arrMs := getArrivalTime stu
    let diffMin := (arrMs.sub (JSNum.fin now)).divLit 60000
    diffMin.ge (JSNum.fin thresholdMin))

/-- The function `getSecondsUntil`. The argument is the integer whose decimal rendering
`appendUpdateInfo` stored in the data attribute and `parseInt` reads back. -/
def getSecondsUntil (ms : Int) (now : Int) : JSNum :=
  if ms = 0 then JSNum.posInf
  else (JSNum.sub (JSNum.fin ms) (JSNum.fin now)).divLit 1000

/-- The function `formatTimeString`: seconds to "Mm Ss", or a fallback; "N/A" when
`isFinite(seconds)` is false. -/
def formatTimeString (seconds : JSNum) (fallbackIfZero : String) : String :=
  match seconds with
  | JSNum.fin q =>
    if q ≤ 0 then fallbackIfZero
    else
      let s : Int := ⌊q⌋
      let min : Int := ⌊(s : ℚ) / 60⌋
      let sec : Int := s % 60
      s!"{min}m {sec}s"
  | _ => "N/A"

/-- The function `formatCountdownMessage`, for the inbound/outbound listing. -/
def formatCountdownMessage (arrivalSec : Int) (direction : String) (now : Int) : String :=
  let secUntil : Int := arrivalSec - ⌊(now : ℚ) / 1000⌋
  let arrivalStr := formatTimeString (JSNum.fin secUntil) "Arriving now"
  s!"{direction}: Arrives in {arrivalStr}"

/-- The function `formatCountdownString`, used in `updateAllCountdowns`. -/
def formatCountdownString (direction : String) (arrivalSec : JSNum) : String :=
  let arrivalStr := formatTimeString arrivalSec "Arriving now"
  s!"{direction}: Arrives in {arrivalStr}"

/-! ## Station matching -/

/-- One atom of the patterns `fetchDataForStation` builds: a literal character or a
character class such as `[NS]`. -/
inductive Atom where
  | lit (c : Char)
  | oneOf (cs : List Char)
  deriving DecidableEq

/-- A pattern `^atoms$` (no flags): the whole input must be matched. -/
structure RegExp where
  atoms : List Atom
  deriving DecidableEq

/-- Whether an atom accepts a character. -/
def Atom.accepts : Atom → Char → Bool
  | Atom.lit c, x => decide (x = c)
  | Atom.oneOf cs, x => decide (x ∈ cs)

/-- Match of a sequence of atoms against the whole of a character sequence. -/
def matchAtoms : List Atom → List Char → Bool
  | [], [] => true
  | a :: as, c :: cs => a.accepts c && matchAtoms as cs
  | _, _ => false

/-- The method `regex.test(s)`. -/
def RegExp.test (re : RegExp) (s : String) : Bool :=
  matchAtoms re.atoms s.toList

/-- The atoms `${stationId}` contributes to a pattern. A station code of letters and
digits (all configured codes: "709", "G14") is a run of literal characters. -/
def stationAtoms (stationId : String) : List Atom :=
  stationId.toList.map Atom.lit

/-- The pattern `^${stationId}S$`. -/
def inboundRegex (stationId : String) : RegExp :=
  ⟨stationAtoms stationId ++ [Atom.lit 'S']⟩

/-- The pattern `^${stationId}N$`. -/
def outboundRegex (stationId : String) : RegExp :=
  ⟨stationAtoms stationId ++ [Atom.lit 'N']⟩

/-- The pattern `^${stationId}[NS]$`. -/
def baseRegex (stationId : String) : RegExp :=
  ⟨stationAtoms stationId ++ [Atom.oneOf ['N', 'S']]⟩

/-- The entities kept by the filter on `message.entity`: a trip update with a
stop-time update whose stop id matches `baseRegex`. -/
def relevantEntities (stationId : String) (message : FeedMessage) : List FeedEntity :=
  message.entity.filter (fun entity =>
    match entity.tripUpdate with
    | none => false
    | some tripUpdate =>
      match tripUpdate.stopTimeUpdate with
      | none => false
      | some stopTimeUpdate =>
        stopTimeUpdate.any (fun stu => (baseRegex stationId).test stu.stopId))

/-- The expression `entity.tripUpdate.stopTimeUpdate || []` of the `forEach` body. -/
def FeedEntity.updates (entity : FeedEntity) : List StopTimeUpdate :=
  match entity.tripUpdate with
  | none => []
  | some tripUpdate => tripUpdate.stopTimeUpdate.getD []

/-- The `forEach` over the relevant entities, for one of the two lists: push the
updates of each entity whose stop id matches `re`. -/
def pushMatching (re : RegExp) (entities : List FeedEntity) : List StopTimeUpdate :=
  entities.foldl
    (fun acc entity => acc ++ entity.updates.filter (fun stu => re.test stu.stopId)) []

/-- The list `inboundAll` after the `forEach` (before sorting). -/
def inboundCandidates (stationId : String) (message : FeedMessage) : List StopTimeUpdate :=
  pushMatching (inboundRegex stationId) (relevantEntities stationId message)

/-- The list `outboundAll` after the `forEach` (before sorting). -/
def outboundCandidates (stationId : String) (message : FeedMessage) : List StopTimeUpdate :=
  pushMatching (outboundRegex stationId) (relevantEntities stationId message)

/-- Every stop-time update of the decoded snapshot, in feed order: the updates of each
entity that carries a trip update. -/
def snapshotUpdates (message : FeedMessage) : List StopTimeUpdate :=
  message.entity.flatMap FeedEntity.updates

/-! ## Ranking -/

/-- The method `Array.prototype.sort(comparefn)`: a stable sort in which `a` stays in
front of `b` unless `comparefn(a, b) > 0` (a NaN result counts as `+0`). -/
def jsSort {α : Type} (comparefn : α → α → JSNum) (l : List α) : List α :=
  l.insertionSort (fun a b => (comparefn a b).gt (JSNum.fin 0) = false)

/-- The comparator `(a, b) => getArrivalTime(a) - getArrivalTime(b)`. -/
def compareArrival (a b : StopTimeUpdate) : JSNum :=
  (getArrivalTime a).sub (getArrivalTime b)

/-- Lines 158-168 for one direction: sort by arrival time, drop what is below the
threshold, keep the first three. -/
def rank (candidates : List StopTimeUpdate) (hideThreshold : ℚ) (now : Int) :
    List StopTimeUpdate :=
  (filterBelowThreshold (jsSort compareArrival candidates) hideThreshold now).take 3

/-- The final value of `inboundAll` in `fetchDataForStation`. -/
def inboundAll (config : LineConfig) (message : FeedMessage) (now : Int) :
    List StopTimeUpdate :=
  rank (inboundCandidates config.stationIdBase message) config.hideThreshold now

/-- The final value of `outboundAll` in `fetchDataForStation`. -/
def outboundAll (config : LineConfig) (message : FeedMessage) (now : Int) :
    List StopTimeUpdate :=
  rank (outboundCandidates config.stationIdBase message) config.hideThreshold now

/-! ## Page state -/

/-- The CSS `display` of a tracked `<p>`: not set by the script yet, `'none'` or
`'block'`. -/
inductive Display where
  | unset
  | none
  | block
  deriving DecidableEq

/-- The data attributes `appendUpdateInfo` stores on a `<p>`. The numbers are kept as
numbers; the script stores their decimal rendering and parses it back. -/
structure Dataset where
  arrivalMs : Int
  departureMs : Int
  direction : String
  hideThreshold : ℚ
  deriving DecidableEq

/-- A `<p class="train-update">` element. -/
structure PElem where
  dataset : Dataset
  textContent : String
  display : Display
  deriving DecidableEq

/-- What `updateLeaveMessage` writes into a leave-message box.
`NoData` is "No inbound trains available." (red), `TooLate` is
"If you run, you might make it!" (red), `LeaveBy left` is
"Leave in the next left minute(s)" (green). -/
inductive LeaveAdvice where
  | NoData
  | TooLate
  | LeaveBy (left : JSNum)
  deriving DecidableEq

/-- The state the script keeps: the global `allTrainUpdates` and the leave-message
boxes of the document by id (`none`: nothing written yet). -/
structure Page where
  allTrainUpdates : List PElem
  boxes : List (String × Option LeaveAdvice)
  deriving DecidableEq

/-- The call `document.getElementById(id)` on the leave-message boxes. -/
def getElementById : List (String × Option LeaveAdvice) → String → Option (Option LeaveAdvice)
  | [], _ => Option.none
  | (i, c) :: rest, id => if i = id then some c else getElementById rest id

/-- Writing text and colour into the element `getElementById` finds. -/
def setElement : List (String × Option LeaveAdvice) → String → LeaveAdvice →
    List (String × Option LeaveAdvice)
  | [], _, _ => []
  | (i, c) :: rest, id, a =>
    if i = id then (i, some a) :: rest else (i, c) :: setElement rest id a

/-- The function `appendUpdateInfo`: create the `<p>` of one update and push it on
`allTrainUpdates`. -/
def appendUpdateInfo (allTrainUpdates : List PElem) (update : StopTimeUpdate)
    (directionLabel : String) (config : LineConfig) (now : Int) : List PElem :=
  let arrivalSec := orZero update.arrivalTime
  let departureSec := orZero update.departureTime
  let p : PElem :=
    { dataset :=
        { arrivalMs := arrivalSec * 1000
          departureMs := departureSec * 1000
          direction := directionLabel
          hideThreshold := if config.hideThreshold = 0 then 8 else config.hideThreshold }
      textContent := formatCountdownMessage arrivalSec directionLabel now
      display := Display.unset }
  allTrainUpdates ++ [p]

/-- The function `updateLeaveMessage`, acting on the leave-message boxes. -/
def updateLeaveMessage (boxes : List (String × Option LeaveAdvice))
    (inboundUpdates : List StopTimeUpdate) (walkTime : ℚ) (containerId : String)
    (now : Int) : List (String × Option LeaveAdvice) :=
  match getElementById boxes containerId with
  | Option.none => boxes
  | some _ =>
    match inboundUpdates with
    | [] => setElement boxes containerId LeaveAdvice.NoData
    | first :: _ =>
      let arrivalMs := getArrivalTime first
      let diffMin := (arrivalMs.sub (JSNum.fin now)).divLit 60000
      let leaveMin := diffMin.sub (JSNum.fin walkTime)
      if leaveMin.le (JSNum.fin 0) then setElement boxes containerId LeaveAdvice.TooLate
      else
        let left := leaveMin.ceil
        setElement boxes containerId (LeaveAdvice.LeaveBy left)

/-- Whether `t` occurs at the front of `s`. -/
def startsWith : List Char → List Char → Bool
  | _, [] => true
  | [], _ :: _ => false
  | c :: cs, d :: ds => decide (c = d) && startsWith cs ds

/-- Whether `t` occurs somewhere in `s`. -/
def includesChars : List Char → List Char → Bool
  | [], t => startsWith [] t
  | c :: cs, t => startsWith (c :: cs) t || includesChars cs t

/-- The method `s.includes(t)`. -/
def includes (s t : String) : Bool := includesChars s.toList t.toList

/-- The body of the decode callback of `fetchDataForStation` on a decoded `message`:
the new `<p>` elements are pushed on `allTrainUpdates`, inbound first, and the leave
message of the line is set. -/
def fetchDataForStation (config : LineConfig) (message : FeedMessage) (now : Int)
    (page : Page) : Page :=
  let inbound := inboundAll config message now
  let outbound := outboundAll config message now
  let tracked := inbound.foldl
    (fun acc update => appendUpdateInfo acc update "Inbound" config now) page.allTrainUpdates
  let tracked := outbound.foldl
    (fun acc update => appendUpdateInfo acc update "Outbound" config now) tracked
  let boxes :=
    if includes config.lineName "7 Train" then
      updateLeaveMessage page.boxes inbound 10 "leave-message" now
    else if includes config.lineName "R Train" then
      updateLeaveMessage page.boxes inbound 16 "leave-message-astoria" now
    else if includes config.lineName "E Train" then
      updateLeaveMessage page.boxes inbound 16 "leave-message-e" now
    else if includes config.lineName "F Train" then
      updateLeaveMessage page.boxes inbound 16 "leave-message-f" now
    else page.boxes
  { allTrainUpdates := tracked, boxes := boxes }

/-- The body of the `forEach` of `updateAllCountdowns`, for one tracked `<p>`. -/
def countdownTick (p : PElem) (now : Int) : PElem :=
  let hideMin : ℚ := if p.dataset.hideThreshold = 0 then 8 else p.dataset.hideThreshold
  let arrivalMin := (getSecondsUntil p.dataset.arrivalMs now).divLit 60
  if arrivalMin.lt (JSNum.fin hideMin) then { p with display := Display.none }
  else
    let direction := if p.dataset.direction = "" then "Train" else p.dataset.direction
    let arrivalSec := getSecondsUntil p.dataset.arrivalMs now
    { p with
      display := Display.block
      textContent := formatCountdownString direction arrivalSec }

/-- The function `updateAllCountdowns`. -/
def updateAllCountdowns (page : Page) (now : Int) : Page :=
  { page with allTrainUpdates := page.allTrainUpdates.map (fun p => countdownTick p now) }

/-! ## Sample inputs -/

/-- A snapshot of one entity whose trip update carries the given stop-time updates. -/
def snapshotOf (updates : List StopTimeUpdate) : FeedMessage :=
  ⟨[⟨some ⟨some updates⟩⟩]⟩

/-- A page that has the four leave-message boxes and tracks no `<p>` yet. -/
def emptyPage : Page :=
  { allTrainUpdates := []
    boxes := [("leave-message", Option.none), ("leave-message-astoria", Option.none),
      ("leave-message-e", Option.none), ("leave-message-f", Option.none)] }

/-- A southbound update at 82nd St with neither an arrival nor a departure time. -/
def untimedUpdate : StopTimeUpdate := ⟨"709S", Option.none, Option.none⟩

/-- A southbound update at 82nd St with a departure time (1000 s) and no arrival. -/
def departureOnlyUpdate : StopTimeUpdate := ⟨"709S", Option.none, some ⟨some 1000⟩⟩

/-- A southbound update at 82nd St arriving at 1200 s. -/
def arrivalUpdate : StopTimeUpdate := ⟨"709S", some ⟨some 1200⟩, Option.none⟩

/-! ## Facts about the resolved arrival instant -/

/-- A resolved arrival instant is a finite number of milliseconds or `Infinity`. -/
theorem getArrivalTime_fin_or_posInf (stu : StopTimeUpdate) :
    (∃ q : ℚ, getArrivalTime stu = JSNum.fin q) ∨ getArrivalTime stu = JSNum.posInf := by
  unfold getArrivalTime
  split_ifs
  · exact Or.inl ⟨_, rfl⟩
  · exact Or.inl ⟨_, rfl⟩
  · exact Or.inr rfl

/-- An update without arrival and departure time resolves to `Infinity`. -/
theorem getArrivalTime_unknown (stu : StopTimeUpdate) (ha : stu.arrivalTime = none)
    (hd : stu.departureTime = none) : getArrivalTime stu = JSNum.posInf := by
  simp [getArrivalTime, ha, hd, truthy]

/-- The threshold test of `filterBelowThreshold` on a finite instant, in plain
arithmetic. -/
theorem threshold_test_fin (a thresholdMin : ℚ) (now : Int) :
    (((JSNum.fin a).sub (JSNum.fin now)).divLit 60000).ge (JSNum.fin thresholdMin) = true ↔
      thresholdMin ≤ (a - now) / 60000 := by
  simp [JSNum.sub, JSNum.divLit, JSNum.ge, JSNum.le]

/-- The threshold test of `filterBelowThreshold` on `Infinity` succeeds. -/
theorem threshold_test_posInf (thresholdMin : ℚ) (now : Int) :
    ((JSNum.posInf.sub (JSNum.fin now)).divLit 60000).ge (JSNum.fin thresholdMin) = true := by
  simp [JSNum.sub, JSNum.divLit, JSNum.ge, JSNum.le]

/-! ## getArrivalTime (C4) -/

/-- C4, as stated, fails: an update whose arrival time is present with value 0 and
whose departure time is 5 resolves to the departure instant 5000 ms, not to
0 × 1000 ms; with no departure it resolves to `Infinity`. -/
theorem getArrivalTime_zero_arrival_counterexample :
    getArrivalTime ⟨"G14S", some ⟨some 0⟩, some ⟨some 5⟩⟩ = JSNum.fin 5000 ∧
    getArrivalTime ⟨"G14S", some ⟨some 0⟩, some ⟨some 5⟩⟩ ≠ JSNum.fin ((0 * 1000 : Int) : ℚ) ∧
    getArrivalTime ⟨"G14S", some ⟨some 0⟩, none⟩ = JSNum.posInf := by
  refine ⟨?_, ?_, ?_⟩ <;>
    simp [getArrivalTime, truthy, orZero, StopTimeUpdate.arrivalTime,
      StopTimeUpdate.departureTime]

/-- C4, amended: a present, non-zero arrival time `t` resolves to `t × 1000` ms whatever
the departure field holds; when the arrival time is absent or 0, a present, non-zero
departure time `d` resolves to `d × 1000` ms; when each of the two is absent or 0 the
result is `Infinity`. -/
theorem getArrivalTime_resolution (stu : StopTimeUpdate) :
    (∀ t : Int, stu.arrivalTime = some t → t ≠ 0 →
        getArrivalTime stu = JSNum.fin ((t * 1000 : Int) : ℚ)) ∧
    (∀ d : Int, (stu.arrivalTime = none ∨ stu.arrivalTime = some 0) →
        stu.departureTime = some d → d ≠ 0 →
        getArrivalTime stu = JSNum.fin ((d * 1000 : Int) : ℚ)) ∧
    ((stu.arrivalTime = none ∨ stu.arrivalTime = some 0) →
        (stu.departureTime = none ∨ stu.departureTime = some 0) →
        getArrivalTime stu = JSNum.posInf) := by
  refine ⟨?_, ?_, ?_⟩
  · intro t ht h0
    simp [getArrivalTime, ht, truthy, orZero, h0]
  · intro d ha hd h0
    rcases ha with ha | ha <;> simp [getArrivalTime, ha, hd, truthy, orZero, h0]
  · intro ha hd
    rcases ha with ha | ha <;> rcases hd with hd | hd <;>
      simp [getArrivalTime, ha, hd, truthy]

/-- C4, amended, at concrete updates: arrival 7 with departure 9, arrival 0 with
departure 9, and neither time. -/
theorem getArrivalTime_resolution_witness :
    getArrivalTime ⟨"G14S", some ⟨some 7⟩, some ⟨some 9⟩⟩ = JSNum.fin ((7 * 1000 : Int) : ℚ) ∧
    getArrivalTime ⟨"G14S", some ⟨some 0⟩, some ⟨some 9⟩⟩ = JSNum.fin ((9 * 1000 : Int) : ℚ) ∧
    getArrivalTime ⟨"G14S", none, none⟩ = JSNum.posInf :=
  ⟨(getArrivalTime_resolution ⟨"G14S", some ⟨some 7⟩, some ⟨some 9⟩⟩).1 7 rfl (by decide),
   (getArrivalTime_resolution ⟨"G14S", some ⟨some 0⟩, some ⟨some 9⟩⟩).2.1 9 (Or.inr rfl) rfl
      (by decide),
   (getArrivalTime_resolution ⟨"G14S", none, none⟩).2.2 (Or.inl rfl) (Or.inl rfl)⟩

/-! ## filterBelowThreshold (C2) -/

/-- C2: `filterBelowThreshold` keeps the updates in their order (the result is a
sublist), and an update is in the result exactly when it is in the input and
`(getArrivalTime(update) - now) / 60000 >= hideThreshold`; for a finite instant `a` that
test is `hideThreshold ≤ (a - now) / 60000`, for `Infinity` it succeeds. Scenario: an
arrival 900 s after `now` is kept with threshold 14 and removed with threshold 20. -/
theorem filterBelowThreshold_spec (updates : List StopTimeUpdate) (hideThreshold : ℚ)
    (now : Int) :
    List.Sublist (filterBelowThreshold updates hideThreshold now) updates ∧
    (∀ u, u ∈ filterBelowThreshold updates hideThreshold now ↔
        u ∈ updates ∧
          (((getArrivalTime u).sub (JSNum.fin now)).divLit 60000).ge
            (JSNum.fin hideThreshold) = true) ∧
    (∀ u (a : ℚ), getArrivalTime u = JSNum.fin a →
        (u ∈ filterBelowThreshold updates hideThreshold now ↔
          u ∈ updates ∧ hideThreshold ≤ (a - now) / 60000)) ∧
    (∀ u, getArrivalTime u = JSNum.posInf →
        (u ∈ filterBelowThreshold updates hideThreshold now ↔ u ∈ updates)) ∧
    (∀ (config : LineConfig) (message : FeedMessage) (u : StopTimeUpdate),
        u ∈ inboundAll config message now ∨ u ∈ outboundAll config message now →
          (((getArrivalTime u).sub (JSNum.fin now)).divLit 60000).ge
            (JSNum.fin config.hideThreshold) = true) ∧
    (∀ (id : String) (n : Int) (dep : Option StopTimeEvent), n + 900 ≠ 0 →
        filterBelowThreshold [⟨id, some ⟨some (n + 900)⟩, dep⟩] 14 (n * 1000) =
          [⟨id, some ⟨some (n + 900)⟩, dep⟩] ∧
        filterBelowThreshold [⟨id, some ⟨some (n + 900)⟩, dep⟩] 20 (n * 1000) = []) := by
  refine ⟨List.filter_sublist _, ?_, ?_, ?_, ?_, ?_⟩
  · intro u
    simp [filterBelowThreshold, List.mem_filter]
  · intro u a ha
    simp only [filterBelowThreshold, List.mem_filter, ha]
    rw [threshold_test_fin]
  · intro u hu
    simp only [filterBelowThreshold, List.mem_filter, hu]
    rw [threshold_test_posInf]
    simp
  · intro config message u hu
    have hmem : ∀ cands : List StopTimeUpdate, u ∈ rank cands config.hideThreshold now →
        (((getArrivalTime u).sub (JSNum.fin now)).divLit 60000).ge
          (JSNum.fin config.hideThreshold) = true := by
      intro cands h
      have h2 := List.mem_of_mem_take h
      simp only [filterBelowThreshold, List.mem_filter] at h2
      exact h2.2
    rcases hu with hu | hu
    · exact hmem _ hu
    · exact hmem _ hu
  · intro id n dep hn
    have key : getArrivalTime ⟨id, some ⟨some (n + 900)⟩, dep⟩ =
        JSNum.fin (((n + 900) * 1000 : Int) : ℚ) := by
      simp [getArrivalTime, truthy, orZero, StopTimeUpdate.arrivalTime, hn]
    constructor
    · simp only [filterBelowThreshold, List.filter_cons, List.filter_nil, key]
      rw [if_pos]
      rw [threshold_test_fin]
      push_cast
      ring_nf
      norm_num
    · simp only [filterBelowThreshold, List.filter_cons, List.filter_nil, key]
      rw [if_neg]
      rw [threshold_test_fin]
      push_cast
      ring_nf
      norm_num

/-! ## Leave-message boxes (C3) -/

/-- After `setElement` on an element that exists, `getElementById` finds what was
written. -/
theorem getElementById_setElement (boxes : List (String × Option LeaveAdvice))
    (id : String) (a : LeaveAdvice) (h : (getElementById boxes id).isSome = true) :
    getElementById (setElement boxes id a) id = some (some a) := by
  induction boxes with
  | nil => simp [getElementById] at h
  | cons b rest ih =>
    obtain ⟨i, c⟩ := b
    by_cases hi : i = id
    · simp [getElementById, setElement, hi]
    · simp only [getElementById, if_neg hi] at h
      simp [getElementById, setElement, hi, ih h]

/-- Without the element, `updateLeaveMessage` does nothing. -/
theorem updateLeaveMessage_missing (boxes : List (String × Option LeaveAdvice))
    (inboundUpdates : List StopTimeUpdate) (walkTime : ℚ) (containerId : String) (now : Int)
    (h : getElementById boxes containerId = Option.none) :
    updateLeaveMessage boxes inboundUpdates walkTime containerId now = boxes := by
  simp [updateLeaveMessage, h]

/-- On an existing box, an empty inbound list gives `NoData`. -/
theorem updateLeaveMessage_empty (boxes : List (String × Option LeaveAdvice))
    (containerId : String) (W : ℚ) (now : Int)
    (hEl : (getElementById boxes containerId).isSome = true) :
    getElementById (updateLeaveMessage boxes [] W containerId now) containerId =
      some (some LeaveAdvice.NoData) := by
  obtain ⟨c, hc⟩ := Option.isSome_iff_exists.mp hEl
  simp only [updateLeaveMessage, hc]
  exact getElementById_setElement _ _ _ hEl

/-- On an existing box, a first record of finite instant with `leaveMin ≤ 0` gives
`TooLate`. -/
theorem updateLeaveMessage_tooLate (boxes : List (String × Option LeaveAdvice))
    (containerId : String) (W : ℚ) (now : Int)
    (hEl : (getElementById boxes containerId).isSome = true)
    (first : StopTimeUpdate) (rest : List StopTimeUpdate) (a : ℚ)
    (ha : getArrivalTime first = JSNum.fin a) (hle : (a - now) / 60000 - W ≤ 0) :
    getElementById (updateLeaveMessage boxes (first :: rest) W containerId now) containerId =
      some (some LeaveAdvice.TooLate) := by
  obtain ⟨c, hc⟩ := Option.isSome_iff_exists.mp hEl
  simp only [updateLeaveMessage, hc, ha, JSNum.sub, JSNum.divLit, JSNum.le]
  rw [if_pos (by simpa using hle)]
  exact getElementById_setElement _ _ _ hEl

/-- On an existing box, a first record of finite instant with `leaveMin > 0` gives
`LeaveBy (ceil leaveMin)`. -/
theorem updateLeaveMessage_leaveBy (boxes : List (String × Option LeaveAdvice))
    (containerId : String) (W : ℚ) (now : Int)
    (hEl : (getElementById boxes containerId).isSome = true)
    (first : StopTimeUpdate) (rest : List StopTimeUpdate) (a : ℚ)
    (ha : getArrivalTime first = JSNum.fin a) (hpos : 0 < (a - now) / 60000 - W) :
    getElementById (updateLeaveMessage boxes (first :: rest) W containerId now) containerId =
      some (some (LeaveAdvice.LeaveBy (JSNum.fin (⌈(a - now) / 60000 - W⌉ : Int)))) := by
  obtain ⟨c, hc⟩ := Option.isSome_iff_exists.mp hEl
  simp only [updateLeaveMessage, hc, ha, JSNum.sub, JSNum.divLit, JSNum.le, JSNum.ceil]
  rw [if_neg (by simpa using hpos)]
  exact getElementById_setElement _ _ _ hEl

/-- On an existing box, a first record of unknown instant gives `LeaveBy Infinity`. -/
theorem updateLeaveMessage_unknown (boxes : List (String × Option LeaveAdvice))
    (containerId : String) (W : ℚ) (now : Int)
    (hEl : (getElementById boxes containerId).isSome = true)
    (first : StopTimeUpdate) (rest : List StopTimeUpdate)
    (ha : getArrivalTime first = JSNum.posInf) :
    getElementById (updateLeaveMessage boxes (first :: rest) W containerId now) containerId =
      some (some (LeaveAdvice.LeaveBy JSNum.posInf)) := by
  obtain ⟨c, hc⟩ := Option.isSome_iff_exists.mp hEl
  simp only [updateLeaveMessage, hc, ha, JSNum.sub, JSNum.divLit, JSNum.le, JSNum.ceil]
  rw [if_neg (by simp)]
  exact getElementById_setElement _ _ _ hEl

/-- C3: on an existing leave-message box, `updateLeaveMessage` writes `NoData` for the
empty list; otherwise, with `leaveMin = (a - now) / 60000 - W` for the finite arrival
instant `a` of the first record, `TooLate` when `leaveMin ≤ 0` and
`LeaveBy (ceil leaveMin)` when `leaveMin > 0`; a first record of unknown instant has
`leaveMin = Infinity > 0` and gives `LeaveBy Infinity`. Scenario: first arrival in
10 minutes with `W = 16` gives `TooLate`. -/
theorem updateLeaveMessage_spec (boxes : List (String × Option LeaveAdvice))
    (containerId : String) (W : ℚ) (now : Int)
    (hEl : (getElementById boxes containerId).isSome = true) :
    getElementById (updateLeaveMessage boxes [] W containerId now) containerId =
        some (some LeaveAdvice.NoData) ∧
    (∀ (first : StopTimeUpdate) (rest : List StopTimeUpdate) (a : ℚ),
        getArrivalTime first = JSNum.fin a →
        ((a - now) / 60000 - W ≤ 0 →
          getElementById (updateLeaveMessage boxes (first :: rest) W containerId now)
            containerId = some (some LeaveAdvice.TooLate)) ∧
        (0 < (a - now) / 60000 - W →
          getElementById (updateLeaveMessage boxes (first :: rest) W containerId now)
            containerId =
              some (some (LeaveAdvice.LeaveBy (JSNum.fin (⌈(a - now) / 60000 - W⌉ : Int)))))) ∧
    (∀ (first : StopTimeUpdate) (rest : List StopTimeUpdate),
        getArrivalTime first = JSNum.posInf →
        getElementById (updateLeaveMessage boxes (first :: rest) W containerId now)
          containerId = some (some (LeaveAdvice.LeaveBy JSNum.posInf))) ∧
    (∀ (id : String) (n : Int) (dep : Option StopTimeEvent) (rest : List StopTimeUpdate),
        n + 600 ≠ 0 →
        getElementById
          (updateLeaveMessage boxes (⟨id, some ⟨some (n + 600)⟩, dep⟩ :: rest) 16 containerId
            (n * 1000)) containerId = some (some LeaveAdvice.TooLate)) := by
  refine ⟨updateLeaveMessage_empty boxes containerId W now hEl, ?_, ?_, ?_⟩
  · intro first rest a ha
    exact ⟨updateLeaveMessage_tooLate boxes containerId W now hEl first rest a ha,
      updateLeaveMessage_leaveBy boxes containerId W now hEl first rest a ha⟩
  · intro first rest ha
    exact updateLeaveMessage_unknown boxes containerId W now hEl first rest ha
  · intro id n dep rest hn
    have key : getArrivalTime ⟨id, some ⟨some (n + 600)⟩, dep⟩ =
        JSNum.fin (((n + 600) * 1000 : Int) : ℚ) := by
      simp [getArrivalTime, truthy, orZero, StopTimeUpdate.arrivalTime, hn]
    apply updateLeaveMessage_tooLate boxes containerId 16 (n * 1000) hEl _ rest _ key
    push_cast
    ring_nf
    norm_num

/-- C3 at a concrete page: the box "leave-message-e" exists, the first inbound arrival
is at 4000 s, `now` is 3 400 000 ms and the walk takes 16 minutes. -/
theorem updateLeaveMessage_spec_witness :
    getElementById
      (updateLeaveMessage [("leave-message-e", Option.none)] [] 16 "leave-message-e" 3400000)
      "leave-message-e" = some (some LeaveAdvice.NoData) ∧
    getElementById
      (updateLeaveMessage [("leave-message-e", Option.none)]
        [⟨"G14S", some ⟨some 4000⟩, Option.none⟩] 16 "leave-message-e" 3400000)
      "leave-message-e" = some (some LeaveAdvice.TooLate) :=
  ⟨(updateLeaveMessage_spec [("leave-message-e", Option.none)] "leave-message-e" 16 3400000
      (by decide)).1,
   ((updateLeaveMessage_spec [("leave-message-e", Option.none)] "leave-message-e" 16 3400000
      (by decide)).2.1 ⟨"G14S", some ⟨some 4000⟩, Option.none⟩ [] 4000000
      (by simp [getArrivalTime, truthy, orZero, StopTimeUpdate.arrivalTime])).1
      (by norm_num)⟩

/-! ## Ranking (C1, C10) -/

/-- The sort keeps `a` in front of `b` exactly when the instant of `a` is `<=` that of
`b`, `Infinity` being the largest instant. -/
theorem compareArrival_not_gt_iff (a b : StopTimeUpdate) :
    (compareArrival a b).gt (JSNum.fin 0) = false ↔
      (getArrivalTime a).le (getArrivalTime b) = true := by
  rcases getArrivalTime_fin_or_posInf a with ⟨x, hx⟩ | hx <;>
    rcases getArrivalTime_fin_or_posInf b with ⟨y, hy⟩ | hy <;>
    simp [compareArrival, hx, hy, JSNum.sub, JSNum.gt, JSNum.lt, JSNum.le]

/-- The order of resolved instants is total. -/
theorem arrival_le_total (a b : StopTimeUpdate) :
    (getArrivalTime a).le (getArrivalTime b) = true ∨
      (getArrivalTime b).le (getArrivalTime a) = true := by
  rcases getArrivalTime_fin_or_posInf a with ⟨x, hx⟩ | hx <;>
    rcases getArrivalTime_fin_or_posInf b with ⟨y, hy⟩ | hy <;>
    simp [hx, hy, JSNum.le, le_total]

/-- The order of resolved instants is transitive. -/
theorem arrival_le_trans (a b c : StopTimeUpdate)
    (hab : (getArrivalTime a).le (getArrivalTime b) = true)
    (hbc : (getArrivalTime b).le (getArrivalTime c) = true) :
    (getArrivalTime a).le (getArrivalTime c) = true := by
  rcases getArrivalTime_fin_or_posInf a with ⟨x, hx⟩ | hx <;>
    rcases getArrivalTime_fin_or_posInf b with ⟨y, hy⟩ | hy <;>
    rcases getArrivalTime_fin_or_posInf c with ⟨z, hz⟩ | hz <;>
    simp_all [JSNum.le]
  exact le_trans hab hbc

/-- The sorted list is a permutation of the input. -/
theorem jsSort_perm (l : List StopTimeUpdate) : (jsSort compareArrival l).Perm l :=
  List.perm_insertionSort _ l

/-- The sorted list is ascending in the resolved instant. -/
theorem jsSort_sorted (l : List StopTimeUpdate) :
    List.Sorted (fun a b => (getArrivalTime a).le (getArrivalTime b) = true)
      (jsSort compareArrival l) := by
  haveI : IsTotal StopTimeUpdate
      (fun a b => (compareArrival a b).gt (JSNum.fin 0) = false) :=
    ⟨fun a b => by
      simp only [compareArrival_not_gt_iff]
      exact arrival_le_total a b⟩
  haveI : IsTrans StopTimeUpdate
      (fun a b => (compareArrival a b).gt (JSNum.fin 0) = false) :=
    ⟨fun a b c hab hbc => by
      simp only [compareArrival_not_gt_iff] at hab hbc ⊢
      exact arrival_le_trans a b c hab hbc⟩
  have h := List.sorted_insertionSort
    (fun a b : StopTimeUpdate => (compareArrival a b).gt (JSNum.fin 0) = false) l
  exact List.Pairwise.imp (fun {a b} hab => (compareArrival_not_gt_iff a b).mp hab) h

/-- The sorted, thresholded list (before truncation) is ascending. -/
theorem filter_jsSort_sorted (l : List StopTimeUpdate) (hideThreshold : ℚ) (now : Int) :
    List.Sorted (fun a b => (getArrivalTime a).le (getArrivalTime b) = true)
      (filterBelowThreshold (jsSort compareArrival l) hideThreshold now) :=
  List.Pairwise.sublist (List.filter_sublist _) (jsSort_sorted l)

/-- A ranked list is ascending and has at most three records. -/
theorem rank_sorted_le_three (cands : List StopTimeUpdate) (hideThreshold : ℚ) (now : Int) :
    List.Sorted (fun a b => (getArrivalTime a).le (getArrivalTime b) = true)
      (rank cands hideThreshold now) ∧
    (rank cands hideThreshold now).length ≤ 3 :=
  ⟨List.Pairwise.sublist (List.take_sublist _ _) (filter_jsSort_sorted cands hideThreshold now),
   List.length_take_le _ _⟩

/-- A ranked list holds the nearest qualifying candidates: `min 3 k` of the `k`
qualifying ones, and what is left of them arrives no earlier than any ranked record. -/
theorem rank_nearest (cands : List StopTimeUpdate) (hideThreshold : ℚ) (now : Int) :
    (rank cands hideThreshold now).length =
        min 3 (filterBelowThreshold cands hideThreshold now).length ∧
    ∃ rest : List StopTimeUpdate,
      (rank cands hideThreshold now ++ rest).Perm
        (filterBelowThreshold cands hideThreshold now) ∧
      ∀ p ∈ rank cands hideThreshold now, ∀ u ∈ rest,
        (getArrivalTime p).le (getArrivalTime u) = true := by
  have hperm : (filterBelowThreshold (jsSort compareArrival cands) hideThreshold now).Perm
      (filterBelowThreshold cands hideThreshold now) :=
    List.Perm.filter _ (jsSort_perm cands)
  refine ⟨?_, (filterBelowThreshold (jsSort compareArrival cands) hideThreshold now).drop 3,
    ?_, ?_⟩
  · simp only [rank, List.length_take, hperm.length_eq]
  · simp only [rank, List.take_append_drop]
    exact hperm
  · have hs := filter_jsSort_sorted cands hideThreshold now
    rw [← List.take_append_drop 3
      (filterBelowThreshold (jsSort compareArrival cands) hideThreshold now)] at hs
    exact (List.pairwise_append.mp hs).2.2

/-- C1: each of the two per-direction lists of the refresh pipeline (match, sort,
`filterBelowThreshold`, `slice(0, 3)`) is sorted ascending by resolved arrival instant,
`Infinity` counting as the largest instant, and has at most three records. -/
theorem published_lists_sorted_le_three (config : LineConfig) (message : FeedMessage)
    (now : Int) :
    List.Sorted (fun a b => (getArrivalTime a).le (getArrivalTime b) = true)
      (inboundAll config message now) ∧
    (inboundAll config message now).length ≤ 3 ∧
    List.Sorted (fun a b => (getArrivalTime a).le (getArrivalTime b) = true)
      (outboundAll config message now) ∧
    (outboundAll config message now).length ≤ 3 :=
  ⟨(rank_sorted_le_three _ _ _).1, (rank_sorted_le_three _ _ _).2,
   (rank_sorted_le_three _ _ _).1, (rank_sorted_le_three _ _ _).2⟩

/-- C10: for each direction, with `k` the number of matched updates that pass the
threshold test, the published list has exactly `min 3 k` records; together with some
list `rest` it is a rearrangement of those `k` updates (so every published record is one
of them), and every update of `rest`, that is every qualifying update that is not
published, has an arrival instant `>=` that of every published record. -/
theorem published_lists_nearest (config : LineConfig) (message : FeedMessage) (now : Int) :
    ((inboundAll config message now).length =
        min 3 (filterBelowThreshold (inboundCandidates config.stationIdBase message)
          config.hideThreshold now).length ∧
      ∃ rest : List StopTimeUpdate,
        (inboundAll config message now ++ rest).Perm
          (filterBelowThreshold (inboundCandidates config.stationIdBase message)
            config.hideThreshold now) ∧
        ∀ p ∈ inboundAll config message now, ∀ u ∈ rest,
          (getArrivalTime p).le (getArrivalTime u) = true) ∧
    ((outboundAll config message now).length =
        min 3 (filterBelowThreshold (outboundCandidates config.stationIdBase message)
          config.hideThreshold now).length ∧
      ∃ rest : List StopTimeUpdate,
        (outboundAll config message now ++ rest).Perm
          (filterBelowThreshold (outboundCandidates config.stationIdBase message)
            config.hideThreshold now) ∧
        ∀ p ∈ outboundAll config message now, ∀ u ∈ rest,
          (getArrivalTime p).le (getArrivalTime u) = true) :=
  ⟨rank_nearest _ _ _, rank_nearest _ _ _⟩

/-! ## Station matcher (C6) -/

/-- A run of literal atoms followed by one more atom matches exactly the strings made
of the literals followed by one character the last atom accepts. -/
theorem matchAtoms_lits_then (cs : List Char) (last : Atom) (s : List Char) :
    matchAtoms (cs.map Atom.lit ++ [last]) s = true ↔
      ∃ c, last.accepts c = true ∧ s = cs ++ [c] := by
  induction cs generalizing s with
  | nil =>
    cases s with
    | nil => simp [matchAtoms]
    | cons x xs =>
      cases xs with
      | nil => simp [matchAtoms]
      | cons y ys => simp [matchAtoms]
  | cons d ds ih =>
    cases s with
    | nil => simp [matchAtoms]
    | cons x xs =>
      have step : matchAtoms ((d :: ds).map Atom.lit ++ [last]) (x :: xs) =
          ((Atom.lit d).accepts x && matchAtoms (ds.map Atom.lit ++ [last]) xs) := rfl
      rw [step, Bool.and_eq_true, ih xs]
      simp only [Atom.accepts, decide_eq_true_eq, List.cons_append, List.cons.injEq]
      constructor
      · rintro ⟨hx, c, hc, hxs⟩
        exact ⟨c, hc, hx, hxs⟩
      · rintro ⟨c, hc, hx, hxs⟩
        exact ⟨hx, c, hc, hxs⟩

/-- The inbound pattern accepts exactly the station code followed by "S". -/
theorem inboundRegex_test_iff (stationId s : String) :
    (inboundRegex stationId).test s = true ↔ s = stationId ++ "S" := by
  simp only [RegExp.test, inboundRegex, stationAtoms, matchAtoms_lits_then, Atom.accepts,
    decide_eq_true_eq, String.ext_iff, String.data_append, String.toList]
  constructor
  · rintro ⟨c, rfl, h⟩
    exact h
  · intro h
    exact ⟨_, rfl, h⟩

/-- The outbound pattern accepts exactly the station code followed by "N". -/
theorem outboundRegex_test_iff (stationId s : String) :
    (outboundRegex stationId).test s = true ↔ s = stationId ++ "N" := by
  simp only [RegExp.test, outboundRegex, stationAtoms, matchAtoms_lits_then, Atom.accepts,
    decide_eq_true_eq, String.ext_iff, String.data_append, String.toList]
  constructor
  · rintro ⟨c, rfl, h⟩
    exact h
  · intro h
    exact ⟨_, rfl, h⟩

/-- The base pattern accepts exactly the station code followed by "N" or by "S". -/
theorem baseRegex_test_iff (stationId s : String) :
    (baseRegex stationId).test s = true ↔ s = stationId ++ "N" ∨ s = stationId ++ "S" := by
  simp only [RegExp.test, baseRegex, stationAtoms, matchAtoms_lits_then, Atom.accepts,
    decide_eq_true_eq, String.ext_iff, String.data_append, String.toList, List.mem_cons,
    List.mem_singleton, List.not_mem_nil, or_false]
  constructor
  · rintro ⟨c, hc | hc, h⟩
    · left; rw [h, hc]
    · right; rw [h, hc]
  · rintro (h | h)
    · exact ⟨_, Or.inl rfl, h⟩
    · exact ⟨_, Or.inr rfl, h⟩

/-- The `forEach` with `push` collects, in order, the matching updates of each entity. -/
theorem pushMatching_eq_flatMap (re : RegExp) (entities : List FeedEntity) :
    pushMatching re entities =
      entities.flatMap (fun e => e.updates.filter (fun stu => re.test stu.stopId)) := by
  have h : ∀ (init : List StopTimeUpdate),
      entities.foldl
        (fun acc entity => acc ++ entity.updates.filter (fun stu => re.test stu.stopId)) init =
      init ++ entities.flatMap (fun e => e.updates.filter (fun stu => re.test stu.stopId)) := by
    induction entities with
    | nil => intro init; simp
    | cons e es ih => intro init; simp [ih, List.append_assoc]
  simpa [pushMatching] using h []

/-- An entity the relevance filter drops has no update that a pattern implying the
base pattern accepts. -/
theorem dropped_entity_no_match (stationId : String) (re : RegExp)
    (hre : ∀ s, re.test s = true → (baseRegex stationId).test s = true)
    (message : FeedMessage) (e : FeedEntity)
    (he : e ∉ relevantEntities stationId message) (hmem : e ∈ message.entity) :
    e.updates.filter (fun stu => re.test stu.stopId) = [] := by
  rw [List.filter_eq_nil_iff]
  intro u hu hmatch
  apply he
  simp only [relevantEntities, List.mem_filter]
  refine ⟨hmem, ?_⟩
  cases hte : e.tripUpdate with
  | none => simp [FeedEntity.updates, hte] at hu
  | some tu =>
    cases hst : tu.stopTimeUpdate with
    | none => simp [FeedEntity.updates, hte, hst] at hu
    | some us =>
      simp only [FeedEntity.updates, hte, hst, Option.getD_some] at hu
      simp only [hte, hst, List.any_eq_true]
      exact ⟨u, hu, hre _ hmatch⟩

/-- The candidates of a pattern that implies the base pattern are the updates of the
snapshot the pattern accepts, in feed order. -/
theorem pushMatching_relevant (stationId : String) (re : RegExp)
    (hre : ∀ s, re.test s = true → (baseRegex stationId).test s = true)
    (message : FeedMessage) :
    pushMatching re (relevantEntities stationId message) =
      (snapshotUpdates message).filter (fun stu => re.test stu.stopId) := by
  rw [pushMatching_eq_flatMap, snapshotUpdates, List.filter_flatMap]
  have h : ∀ (es : List FeedEntity), (∀ e ∈ es, e ∈ message.entity) →
      (es.filter (fun e => decide (e ∈ relevantEntities stationId message))).flatMap
        (fun e => e.updates.filter (fun stu => re.test stu.stopId)) =
      es.flatMap (fun e => e.updates.filter (fun stu => re.test stu.stopId)) := by
    intro es
    induction es with
    | nil => intro _; rfl
    | cons e es ih =>
      intro hes
      have ih2 := ih (fun x hx => hes x (List.mem_cons_of_mem _ hx))
      by_cases hr : e ∈ relevantEntities stationId message
      · simp [List.filter_cons, hr, ih2]
      · have hnil := dropped_entity_no_match stationId re hre message e hr
          (hes e (List.mem_cons_self _ _))
        simp [List.filter_cons, hr, ih2, hnil]
  have hfilter : relevantEntities stationId message =
      message.entity.filter (fun e => decide (e ∈ relevantEntities stationId message)) := by
    simp only [relevantEntities]
    apply List.filter_congr
    intro e he
    simp [List.mem_filter, he]
  rw [hfilter]
  exact h message.entity (fun e he => he)

/-- C6: for a station code of ASCII letters and digits (the codes for which the pattern
built from the code is a run of literal characters), the inbound candidate list is
the list of the snapshot's stop-time updates whose stop identifier equals the code
followed by "S", the outbound candidate list the list of those whose identifier equals
the code followed by "N" (any other identifier, longer or shorter, is discarded), and no
update is in both lists. -/
theorem matcher_exact (stationId : String) (message : FeedMessage)
    (_hcode : ∀ c ∈ stationId.toList, c.isAlphanum = true) :
    inboundCandidates stationId message =
        (snapshotUpdates message).filter (fun stu => decide (stu.stopId = stationId ++ "S")) ∧
    outboundCandidates stationId message =
        (snapshotUpdates message).filter (fun stu => decide (stu.stopId = stationId ++ "N")) ∧
    (∀ stu, stu ∈ inboundCandidates stationId message ↔
        stu ∈ snapshotUpdates message ∧ stu.stopId = stationId ++ "S") ∧
    (∀ stu, stu ∈ outboundCandidates stationId message ↔
        stu ∈ snapshotUpdates message ∧ stu.stopId = stationId ++ "N") ∧
    (∀ stu, ¬ (stu ∈ inboundCandidates stationId message ∧
        stu ∈ outboundCandidates stationId message)) := by
  have hin : inboundCandidates stationId message =
      (snapshotUpdates message).filter (fun stu => decide (stu.stopId = stationId ++ "S")) := by
    rw [inboundCandidates, pushMatching_relevant stationId _
      (fun s hs => (baseRegex_test_iff stationId s).mpr
        (Or.inr ((inboundRegex_test_iff stationId s).mp hs)))]
    apply List.filter_congr
    intro u _
    rw [Bool.eq_iff_iff, inboundRegex_test_iff, decide_eq_true_eq]
  have hout : outboundCandidates stationId message =
      (snapshotUpdates message).filter (fun stu => decide (stu.stopId = stationId ++ "N")) := by
    rw [outboundCandidates, pushMatching_relevant stationId _
      (fun s hs => (baseRegex_test_iff stationId s).mpr
        (Or.inl ((outboundRegex_test_iff stationId s).mp hs)))]
    apply List.filter_congr
    intro u _
    rw [Bool.eq_iff_iff, outboundRegex_test_iff, decide_eq_true_eq]
  refine ⟨hin, hout, ?_, ?_, ?_⟩
  · intro stu
    rw [hin]
    simp [List.mem_filter]
  · intro stu
    rw [hout]
    simp [List.mem_filter]
  · rintro stu ⟨h1, h2⟩
    rw [hin] at h1
    rw [hout] at h2
    simp only [List.mem_filter, decide_eq_true_eq] at h1 h2
    have h := h1.2.symm.trans h2.2
    rw [String.ext_iff, String.data_append, String.data_append] at h
    have h3 := List.append_cancel_left h
    simp at h3

/-- C6 at the station code "G14": of five updates, only the one with stop id "G14S" is an
inbound candidate. -/
theorem matcher_exact_witness :
    inboundCandidates "G14"
        (snapshotOf [⟨"G14S", Option.none, Option.none⟩, ⟨"G14N", Option.none, Option.none⟩,
          ⟨"G14", Option.none, Option.none⟩, ⟨"AG14S", Option.none, Option.none⟩,
          ⟨"G14SS", Option.none, Option.none⟩]) =
      [⟨"G14S", Option.none, Option.none⟩] :=
  (matcher_exact "G14" _ (by decide)).1.trans (by decide)

/-! ## Records of unknown instant (C5) -/

/-- C5, as stated, fails: on the 7 line (hideThreshold 8), a snapshot whose only matched
update has neither an arrival nor a departure time passes the threshold check and is
published as the inbound list. -/
theorem untimed_update_published_counterexample :
    untimedUpdate.arrivalTime = Option.none ∧ untimedUpdate.departureTime = Option.none ∧
    filterBelowThreshold [untimedUpdate] line7.hideThreshold 0 = [untimedUpdate] ∧
    inboundAll line7 (snapshotOf [untimedUpdate]) 0 = [untimedUpdate] := by
  decide!

/-- C5, amended: a matched update with neither an arrival nor a departure time resolves
to `Infinity`, which no instant exceeds (it sorts last), and it always passes the
threshold check: `filterBelowThreshold` keeps it in the sorted list, and it is published
whenever at most three candidates of its direction pass the check. -/
theorem untimed_update_passes_threshold (cands : List StopTimeUpdate) (hideThreshold : ℚ)
    (now : Int) (u : StopTimeUpdate) (hu : u ∈ cands)
    (ha : u.arrivalTime = Option.none) (hd : u.departureTime = Option.none) :
    getArrivalTime u = JSNum.posInf ∧
    (∀ v : StopTimeUpdate, (getArrivalTime v).le (getArrivalTime u) = true) ∧
    (((getArrivalTime u).sub (JSNum.fin now)).divLit 60000).ge (JSNum.fin hideThreshold) = true ∧
    u ∈ filterBelowThreshold (jsSort compareArrival cands) hideThreshold now ∧
    ((filterBelowThreshold cands hideThreshold now).length ≤ 3 →
      u ∈ rank cands hideThreshold now) := by
  have hinf := getArrivalTime_unknown u ha hd
  have htest : (((getArrivalTime u).sub (JSNum.fin now)).divLit 60000).ge
      (JSNum.fin hideThreshold) = true := by
    rw [hinf]
    exact threshold_test_posInf hideThreshold now
  have hmem : u ∈ filterBelowThreshold (jsSort compareArrival cands) hideThreshold now := by
    simp only [filterBelowThreshold, List.mem_filter]
    exact ⟨(jsSort_perm cands).mem_iff.mpr hu, htest⟩
  refine ⟨hinf, ?_, htest, hmem, ?_⟩
  · intro v
    rw [hinf]
    rcases getArrivalTime_fin_or_posInf v with ⟨x, hx⟩ | hx <;> simp [hx, JSNum.le]
  · intro hlen
    have hperm : (filterBelowThreshold (jsSort compareArrival cands) hideThreshold now).Perm
        (filterBelowThreshold cands hideThreshold now) :=
      List.Perm.filter _ (jsSort_perm cands)
    rw [rank, List.take_of_length_le (by rw [hperm.length_eq]; exact hlen)]
    exact hmem

/-- C5, amended, at the untimed update of the 7 line next to a timed one: it resolves to
`Infinity`, is kept by the filter and is published. -/
theorem untimed_update_passes_threshold_witness :
    getArrivalTime untimedUpdate = JSNum.posInf ∧
    untimedUpdate ∈ filterBelowThreshold (jsSort compareArrival [arrivalUpdate, untimedUpdate])
      8 0 ∧
    untimedUpdate ∈ rank [arrivalUpdate, untimedUpdate] 8 0 :=
  ⟨(untimed_update_passes_threshold [arrivalUpdate, untimedUpdate] 8 0 untimedUpdate
      (by decide) rfl rfl).1,
   (untimed_update_passes_threshold [arrivalUpdate, untimedUpdate] 8 0 untimedUpdate
      (by decide) rfl rfl).2.2.2.1,
   (untimed_update_passes_threshold [arrivalUpdate, untimedUpdate] 8 0 untimedUpdate
      (by decide) rfl rfl).2.2.2.2 (by decide!)⟩

/-! ## Countdown (C7, C8, C9) -/

/-- A countdown tick leaves the data attributes of a `<p>` as they are. -/
theorem countdownTick_dataset (p : PElem) (now : Int) :
    (countdownTick p now).dataset = p.dataset := by
  unfold countdownTick
  simp only
  split_ifs <;> rfl

/-- A countdown tick hides a `<p>` exactly when `getSecondsUntil(arrivalMs) / 60` is
below the stored threshold (8 when the stored value is 0), and shows it otherwise. -/
theorem countdownTick_display (p : PElem) (now : Int) :
    (countdownTick p now).display =
      if ((getSecondsUntil p.dataset.arrivalMs now).divLit 60).lt
          (JSNum.fin (if p.dataset.hideThreshold = 0 then 8 else p.dataset.hideThreshold)) = true
      then Display.none else Display.block := by
  unfold countdownTick
  simp only
  split_ifs <;> rfl

/-- The `<p>` that `appendUpdateInfo` pushes stores the arrival time alone (0 when it
is absent or 0), the departure time, and the threshold of the line (8 in place of 0). -/
theorem appendUpdateInfo_stored (tracked : List PElem) (update : StopTimeUpdate)
    (directionLabel : String) (config : LineConfig) (now : Int) :
    ∃ p : PElem, appendUpdateInfo tracked update directionLabel config now = tracked ++ [p] ∧
      p.dataset.arrivalMs = orZero update.arrivalTime * 1000 ∧
      p.dataset.departureMs = orZero update.departureTime * 1000 ∧
      p.dataset.hideThreshold = (if config.hideThreshold = 0 then 8 else config.hideThreshold) ∧
      p.display = Display.unset :=
  ⟨_, rfl, rfl, rfl, rfl, rfl⟩

/-- C7, the code at the failing input: on the 7 line (hideThreshold 8) an inbound update
with departure time 1000 s and no arrival time is published at `now = 0`; its resolved
instant is 1 000 000 ms, so at the tick `now = 900 000` ms the remaining time is
100 000 ms, below the threshold; yet the stored `arrivalMs` is 0, `getSecondsUntil`
returns `Infinity`, and the tick shows the record. -/
theorem countdown_ignores_departure_fallback :
    inboundAll line7 (snapshotOf [departureOnlyUpdate]) 0 = [departureOnlyUpdate] ∧
    getArrivalTime departureOnlyUpdate = JSNum.fin 1000000 ∧
    (((getArrivalTime departureOnlyUpdate).sub (JSNum.fin 900000)).divLit 60000).lt
      (JSNum.fin line7.hideThreshold) = true ∧
    (fetchDataForStation line7 (snapshotOf [departureOnlyUpdate]) 0
      emptyPage).allTrainUpdates.map (fun p => p.dataset.arrivalMs) = [0] ∧
    getSecondsUntil 0 900000 = JSNum.posInf ∧
    (updateAllCountdowns
      (fetchDataForStation line7 (snapshotOf [departureOnlyUpdate]) 0 emptyPage)
      900000).allTrainUpdates.map (fun p => p.display) = [Display.block] := by
  decide!

/-- C7, second divergence: a line configured with `hideThreshold = 0` stores 8, so a
record 5 minutes away (300 s) is hidden by the tick although 5 is not below 0. -/
theorem countdown_zero_threshold_becomes_eight :
    (updateAllCountdowns
      (fetchDataForStation { line7 with hideThreshold := 0 }
        (snapshotOf [⟨"709S", some ⟨some 300⟩, Option.none⟩]) 0 emptyPage)
      0).allTrainUpdates.map (fun p => (p.dataset.hideThreshold, p.display)) =
        [(8, Display.none)] := by
  decide!

/-- Where the arrival time of the update is present and not 0 and the threshold of the
line is not 0, the countdown agrees with the resolved instant: the remaining seconds are
`(getArrivalTime(update) - now) / 1000`, and the tick hides the `<p>` exactly when the
remaining minutes are below the threshold of the line. -/
theorem countdown_agrees_when_arrival_known (update : StopTimeUpdate) (t : Int)
    (ht : update.arrivalTime = some t) (h0 : t ≠ 0) (config : LineConfig)
    (hT : config.hideThreshold ≠ 0) (p : PElem)
    (hms : p.dataset.arrivalMs = orZero update.arrivalTime * 1000)
    (hth : p.dataset.hideThreshold =
      (if config.hideThreshold = 0 then 8 else config.hideThreshold)) (now : Int) :
    getSecondsUntil p.dataset.arrivalMs now =
        ((getArrivalTime update).sub (JSNum.fin now)).divLit 1000 ∧
    ((countdownTick p now).display = Display.none ↔
        (((getArrivalTime update).sub (JSNum.fin now)).divLit 60000).lt
          (JSNum.fin config.hideThreshold) = true) ∧
    ((countdownTick p now).display = Display.block ↔
        (((getArrivalTime update).sub (JSNum.fin now)).divLit 60000).lt
          (JSNum.fin config.hideThreshold) = false) := by
  have hkey : getArrivalTime update = JSNum.fin ((t * 1000 : Int) : ℚ) := by
    simp [getArrivalTime, ht, truthy, orZero, h0]
  have hms2 : p.dataset.arrivalMs = t * 1000 := by
    rw [hms]; simp [orZero, ht, truthy, h0]
  have hne : t * 1000 ≠ 0 := by omega
  have hsec : getSecondsUntil p.dataset.arrivalMs now =
      ((getArrivalTime update).sub (JSNum.fin now)).divLit 1000 := by
    simp [getSecondsUntil, hms2, hkey, h0]
  have hmin : (((getArrivalTime update).sub (JSNum.fin now)).divLit 1000).divLit 60 =
      ((getArrivalTime update).sub (JSNum.fin now)).divLit 60000 := by
    rw [hkey]
    simp only [JSNum.sub, JSNum.divLit, JSNum.fin.injEq]
    ring
  refine ⟨hsec, ?_, ?_⟩
  · rw [countdownTick_display, hth, if_neg hT, if_neg hT, hsec, hmin]
    split_ifs with h
    · simp [h]
    · simp [h]
  · rw [countdownTick_display, hth, if_neg hT, if_neg hT, hsec, hmin]
    split_ifs with h
    · simp [h]
    · simp [h]

/-- C8, as stated, fails: the record published for an update without arrival and
departure time stores `arrivalMs = 0`; its remaining time is `Infinity` at the tick
`now = 1000` and at the later tick `now = 2000`, not strictly less. -/
theorem countdown_not_strict_counterexample :
    (fetchDataForStation line7 (snapshotOf [untimedUpdate]) 0
      emptyPage).allTrainUpdates.map (fun p => p.dataset.arrivalMs) = [0] ∧
    getSecondsUntil 0 1000 = JSNum.posInf ∧
    getSecondsUntil 0 2000 = JSNum.posInf ∧
    (getSecondsUntil 0 2000).lt (getSecondsUntil 0 1000) = false := by
  decide!

/-- A `<p>` hidden by the tick at `now1` is hidden by every later tick, applied to the
element as stored or as the earlier tick left it. -/
theorem countdownTick_hidden_stays (p : PElem) (now1 now2 : Int) (h : now1 < now2)
    (hhid : (countdownTick p now1).display = Display.none) :
    (countdownTick p now2).display = Display.none ∧
    (countdownTick (countdownTick p now1) now2).display = Display.none := by
  have hq : ((now1 : Int) : ℚ) < ((now2 : Int) : ℚ) := by exact_mod_cast h
  have key : (countdownTick p now2).display = Display.none := by
    rw [countdownTick_display] at hhid ⊢
    generalize (if p.dataset.hideThreshold = 0 then (8 : ℚ) else p.dataset.hideThreshold) =
      hideMin at hhid ⊢
    by_cases hms : p.dataset.arrivalMs = 0
    · simp [getSecondsUntil, hms, JSNum.divLit, JSNum.lt] at hhid
    · simp only [getSecondsUntil, if_neg hms, JSNum.sub, JSNum.divLit, JSNum.lt,
        decide_eq_true_eq] at hhid ⊢
      by_cases h1 : ((p.dataset.arrivalMs : ℚ) - now1) / 1000 / 60 < hideMin
      · rw [if_pos]
        refine lt_trans ?_ h1
        apply div_lt_div_of_pos_right _ (by norm_num)
        apply div_lt_div_of_pos_right _ (by norm_num)
        linarith
      · rw [if_neg h1] at hhid
        exact absurd hhid (by decide)
  refine ⟨key, ?_⟩
  rw [countdownTick_display, countdownTick_dataset, ← countdownTick_display]
  exact key

/-- C8, amended: let `p` be the record `appendUpdateInfo` stores for an update, and
`now1 < now2` two countdown instants. If the update carries an arrival time that is not
0, the remaining time at `now2` is strictly less than at `now1`; if the resolved instant
of the update is the unknown sentinel (no arrival and no departure time), the remaining
time is `Infinity` at both instants; and in every case a record hidden by the tick at
`now1` is hidden by the tick at `now2`. -/
theorem countdown_monotone (tracked : List PElem) (update : StopTimeUpdate)
    (directionLabel : String) (config : LineConfig) (now0 : Int) (p : PElem)
    (hp : appendUpdateInfo tracked update directionLabel config now0 = tracked ++ [p])
    (now1 now2 : Int) (h : now1 < now2) :
    (∀ t : Int, update.arrivalTime = some t → t ≠ 0 →
      (getSecondsUntil p.dataset.arrivalMs now2).lt
        (getSecondsUntil p.dataset.arrivalMs now1) = true) ∧
    (getArrivalTime update = JSNum.posInf →
      getSecondsUntil p.dataset.arrivalMs now1 = JSNum.posInf ∧
      getSecondsUntil p.dataset.arrivalMs now2 = JSNum.posInf) ∧
    ((countdownTick p now1).display = Display.none →
      (countdownTick p now2).display = Display.none ∧
      (countdownTick (countdownTick p now1) now2).display = Display.none) := by
  have hq : ((now1 : Int) : ℚ) < ((now2 : Int) : ℚ) := by exact_mod_cast h
  have hms : p.dataset.arrivalMs = orZero update.arrivalTime * 1000 := by
    obtain ⟨q, hq1, hq2, -⟩ :=
      appendUpdateInfo_stored tracked update directionLabel config now0
    rw [hp] at hq1
    have hpq : p = q := by
      have := List.append_cancel_left hq1
      simpa using this
    rw [hpq, hq2]
  refine ⟨?_, ?_, countdownTick_hidden_stays p now1 now2 h⟩
  · intro t ht h0
    have hms2 : p.dataset.arrivalMs = t * 1000 := by
      rw [hms]; simp [orZero, ht, truthy, h0]
    have hne : t * 1000 ≠ 0 := by omega
    simp only [hms2, getSecondsUntil, if_neg hne, JSNum.sub, JSNum.divLit, JSNum.lt,
      decide_eq_true_eq]
    apply div_lt_div_of_pos_right _ (by norm_num)
    linarith
  · intro hinf
    have hfalsy : truthy update.arrivalTime = false := by
      by_contra hc
      simp only [Bool.not_eq_false] at hc
      simp [getArrivalTime, hc] at hinf
    have hms0 : p.dataset.arrivalMs = 0 := by
      rw [hms]; simp [orZero, hfalsy]
    simp [getSecondsUntil, hms0]

/-- C8, amended, at the record stored on the 7 line for the update arriving at 1200 s,
between the ticks `now = 900 000` and `now = 901 000`: the remaining time decreases and
the record, hidden at the first tick, is hidden at the second. -/
theorem countdown_monotone_witness :
    (getSecondsUntil 1200000 901000).lt (getSecondsUntil 1200000 900000) = true ∧
    (countdownTick
      ⟨⟨1200000, 0, "Inbound", 8⟩, formatCountdownMessage 1200 "Inbound" 0, Display.unset⟩
      901000).display = Display.none :=
  ⟨(countdown_monotone [] arrivalUpdate "Inbound" line7 0
      ⟨⟨1200000, 0, "Inbound", 8⟩, formatCountdownMessage 1200 "Inbound" 0, Display.unset⟩
      (by decide!) 900000 901000 (by decide)).1 1200 rfl (by decide),
   ((countdown_monotone [] arrivalUpdate "Inbound" line7 0
      ⟨⟨1200000, 0, "Inbound", 8⟩, formatCountdownMessage 1200 "Inbound" 0, Display.unset⟩
      (by decide!) 900000 901000 (by decide)).2.2 (by decide!)).1⟩

/-- C9, as stated, fails: on the 7 line (walk 10 minutes), after a refresh at `now = 0`
with first inbound arrival at 1200 s the box shows `LeaveBy 10`; after the countdown
tick at `now = 900 000` ms it still shows `LeaveBy 10`, while the rule applied to the
published list at that instant gives `TooLate`. -/
theorem leave_advice_stale_counterexample :
    inboundAll line7 (snapshotOf [arrivalUpdate]) 0 = [arrivalUpdate] ∧
    getElementById
      (updateAllCountdowns (fetchDataForStation line7 (snapshotOf [arrivalUpdate]) 0 emptyPage)
        900000).boxes "leave-message" = some (some (LeaveAdvice.LeaveBy (JSNum.fin 10))) ∧
    getElementById
      (updateLeaveMessage
        (fetchDataForStation line7 (snapshotOf [arrivalUpdate]) 0 emptyPage).boxes
        (inboundAll line7 (snapshotOf [arrivalUpdate]) 0) 10 "leave-message" 900000)
      "leave-message" = some (some LeaveAdvice.TooLate) := by
  decide!

/-- C9, amended: a countdown tick leaves every leave-message box as it is; after a
refresh at `now0` followed by a tick at any `now`, the box of each configured line still
holds what `updateLeaveMessage` wrote at the refresh, that is the rule of C3 applied to
the published inbound list, the walk time of the line and `now0`. -/
theorem leave_advice_only_on_refresh (page : Page) (message : FeedMessage) (now0 now : Int) :
    (updateAllCountdowns page now).boxes = page.boxes ∧
    (∀ config : LineConfig,
      (updateAllCountdowns (fetchDataForStation config message now0 page) now).boxes =
        (fetchDataForStation config message now0 page).boxes) ∧
    (updateAllCountdowns (fetchDataForStation line7 message now0 page) now).boxes =
      updateLeaveMessage page.boxes (inboundAll line7 message now0) 10 "leave-message" now0 ∧
    (updateAllCountdowns (fetchDataForStation lineR message now0 page) now).boxes =
      updateLeaveMessage page.boxes (inboundAll lineR message now0) 16
        "leave-message-astoria" now0 ∧
    (updateAllCountdowns (fetchDataForStation lineE message now0 page) now).boxes =
      updateLeaveMessage page.boxes (inboundAll lineE message now0) 16 "leave-message-e" now0 ∧
    (updateAllCountdowns (fetchDataForStation lineF message now0 page) now).boxes =
      updateLeaveMessage page.boxes (inboundAll lineF message now0) 16 "leave-message-f" now0 := by
  have h7 : includes line7.lineName "7 Train" = true := by decide
  have hR7 : includes lineR.lineName "7 Train" = false := by decide
  have hR : includes lineR.lineName "R Train" = true := by decide
  have hE7 : includes lineE.lineName "7 Train" = false := by decide
  have hER : includes lineE.lineName "R Train" = false := by decide
  have hE : includes lineE.lineName "E Train" = true := by decide
  have hF7 : includes lineF.lineName "7 Train" = false := by decide
  have hFR : includes lineF.lineName "R Train" = false := by decide
  have hFE : includes lineF.lineName "E Train" = false := by decide
  have hF : includes lineF.lineName "F Train" = true := by decide
  refine ⟨rfl, fun _ => rfl, ?_, ?_, ?_, ?_⟩
  · simp only [updateAllCountdowns, fetchDataForStation, h7, if_true]
  · simp only [updateAllCountdowns, fetchDataForStation, hR7, hR, if_true]
    simp
  · simp only [updateAllCountdowns, fetchDataForStation, hE7, hER, hE, if_true]
    simp
  · simp only [updateAllCountdowns, fetchDataForStation, hF7, hFR, hFE, hF, if_true]
    simp

end TrainTracker
